import Mathlib

/-!
# Verification of the anidb-indexer content-addressable cache engine

A shallow embedding of `src/indexer.rs` (the ed2k hashing engine, the
SQLite-backed entity caches, the path index, `get_file`, and the `index`
reconciliation pass), together with proofs about the embedded definitions.

Conventions of the embedding:
* file bytes are `List Nat` (each element a byte value);
* the MD4 compression function comes from an external library (the `md4`
  crate), so it is an abstract parameter `md4 : List Nat → List Nat` of every
  definition that uses it;
* SQLite tables are lists of rows; `INSERT OR REPLACE` removes the rows that
  conflict on a uniqueness constraint and prepends the new row, and
  `query_row` returns the first matching row;
* the filesystem and the remote AniDB service are deterministic oracles
  packaged in an `Env` structure;
* `panic!`/`expect` aborts and propagated `Err`s both become `Except.error`.
-/

namespace AnidbIndexer

/-- `const ED2K_CHUNK_SIZE: usize = 9728000;` -/
def ED2K_CHUNK_SIZE : Nat := 9728000

/-- The chunk partition produced by `map.par_chunks(ED2K_CHUNK_SIZE)`:
consecutive chunks of `ED2K_CHUNK_SIZE` bytes, the final one possibly shorter,
an empty input producing no chunks (Rust's `chunks` on an empty slice). -/
def ed2kChunks (l : List Nat) : List (List Nat) :=
  if h : l = [] then []
  else l.take ED2K_CHUNK_SIZE :: ed2kChunks (l.drop ED2K_CHUNK_SIZE)
termination_by l.length
decreasing_by
  have hp : 0 < l.length := List.length_pos.mpr h
  simp only [List.length_drop, ED2K_CHUNK_SIZE]
  omega

/-- The digest pipeline of `fn ed2k_hash` — the code after a successful
`Mmap::map`: digest each chunk, concatenate the chunk digests in original
order, digest the concatenation. The fallible function as its callers see
it, the `Mmap::map` step included, is `ed2k_hash_io` below. -/
def ed2k_hash (md4 : List Nat → List Nat) (bytes : List Nat) : List Nat :=
  md4 (List.flatten ((ed2kChunks bytes).map md4))

/-- `fn ed2k_hash` with its `std::io::Result`: the function first runs
`Mmap::map(file)?`, and the memmap crate cannot map a zero-length file (the
underlying `mmap` call fails with EINVAL), so a zero-byte file yields `Err`
before any digest runs; every other file reaches the digest pipeline over
the mapped bytes. -/
def ed2k_hash_io (md4 : List Nat → List Nat) (bytes : List Nat) :
    Except Unit (List Nat) :=
  if bytes = [] then .error ()
  else .ok (ed2k_hash md4 bytes)

/-- `u128::from_be_bytes`: big-endian byte list to a natural number. -/
def beBytesToNat (l : List Nat) : Nat :=
  l.foldl (fun acc b => acc * 256 + b) 0

/-- One lowercase hexadecimal digit character. -/
def hexDigitChar (n : Nat) : Char :=
  if n < 10 then Char.ofNat (48 + n) else Char.ofNat (87 + n)

/-- `format!("{:032x}", n)` for `n : u128`: 32 lowercase hex characters,
zero-padded, most significant digit first. -/
def hex32 (n : Nat) : List Char :=
  (List.range 32).map (fun i => hexDigitChar (n / 16 ^ (31 - i) % 16))

/-- The content hash as computed in `get_file`:
`format!("{:032x}", u128::from_be_bytes(ed2k_hash(&file, pb)?))`. -/
def contentHash (md4 : List Nat → List Nat) (bytes : List Nat) : String :=
  String.mk (hex32 (beBytesToNat (ed2k_hash md4 bytes)))

/-- Number of chunks in the reference partition: `⌈len / ED2K_CHUNK_SIZE⌉`. -/
def numChunks (len : Nat) : Nat :=
  (len + ED2K_CHUNK_SIZE - 1) / ED2K_CHUNK_SIZE

/-- Reference chunk partition following the spec's words: chunk `i` is the
slice of `ED2K_CHUNK_SIZE` bytes starting at offset `i * ED2K_CHUNK_SIZE`,
the final chunk possibly shorter, never padded, and a length that is an exact
multiple of the chunk size yielding no empty trailing chunk. -/
def specChunks (bytes : List Nat) : List (List Nat) :=
  (List.range (numChunks bytes.length)).map
    (fun i => (bytes.drop (i * ED2K_CHUNK_SIZE)).take ED2K_CHUNK_SIZE)

/-- Reference two-level digest following the spec's words: digest every chunk
of the reference partition, concatenate the digests in original chunk order,
digest that buffer, and render it as 32 lowercase hex characters. -/
def specContentHash (md4 : List Nat → List Nat) (bytes : List Nat) : String :=
  String.mk (hex32 (beBytesToNat (md4 (List.flatten ((specChunks bytes).map md4)))))

/-- The lowercase hexadecimal alphabet. -/
def hexAlphabet : List Char := "0123456789abcdef".toList

theorem chunk_size_pos : 0 < ED2K_CHUNK_SIZE := by decide

theorem ed2kChunks_nil : ed2kChunks [] = [] := by
  unfold ed2kChunks
  simp

theorem ed2kChunks_of_ne_nil (l : List Nat) (h : l ≠ []) :
    ed2kChunks l = l.take ED2K_CHUNK_SIZE :: ed2kChunks (l.drop ED2K_CHUNK_SIZE) := by
  conv_lhs => unfold ed2kChunks
  simp [h]

theorem ed2kChunks_small (l : List Nat) (h : l ≠ []) (h2 : l.length ≤ ED2K_CHUNK_SIZE) :
    ed2kChunks l = [l] := by
  rw [ed2kChunks_of_ne_nil l h, List.take_of_length_le h2,
    List.drop_eq_nil_of_le h2, ed2kChunks_nil]

theorem numChunks_zero : numChunks 0 = 0 := by
  simp [numChunks, ED2K_CHUNK_SIZE]

set_option maxRecDepth 4096 in
theorem numChunks_succ_sub (len : Nat) (h : 0 < len) :
    numChunks len = numChunks (len - ED2K_CHUNK_SIZE) + 1 := by
  unfold numChunks ED2K_CHUNK_SIZE
  omega

theorem specChunks_of_ne_nil (l : List Nat) (h : l ≠ []) :
    specChunks l = l.take ED2K_CHUNK_SIZE :: specChunks (l.drop ED2K_CHUNK_SIZE) := by
  have hlen : 0 < l.length := List.length_pos.mpr h
  unfold specChunks
  rw [List.length_drop, numChunks_succ_sub l.length hlen, List.range_succ_eq_map]
  rw [List.map_cons, List.map_map, List.cons.injEq]
  constructor
  · simp
  · apply List.map_congr_left
    intro i _
    simp only [Function.comp_apply]
    have harg : Nat.succ i * ED2K_CHUNK_SIZE = ED2K_CHUNK_SIZE + i * ED2K_CHUNK_SIZE := by
      rw [Nat.succ_mul, Nat.add_comm]
    rw [harg, ← List.drop_drop]

theorem ed2kChunks_eq_specChunks (l : List Nat) : ed2kChunks l = specChunks l := by
  have H : ∀ (n : Nat) (l : List Nat), l.length ≤ n → ed2kChunks l = specChunks l := by
    intro n
    induction n with
    | zero =>
      intro l hl
      have hnil : l = [] := List.eq_nil_of_length_eq_zero (Nat.le_zero.mp hl)
      subst hnil
      simp [ed2kChunks_nil, specChunks, numChunks_zero]
    | succ n ih =>
      intro l hl
      cases l with
      | nil => simp [ed2kChunks_nil, specChunks, numChunks_zero]
      | cons a as =>
        rw [ed2kChunks_of_ne_nil _ (by simp), specChunks_of_ne_nil _ (by simp)]
        congr 1
        apply ih
        simp only [List.length_drop, List.length_cons, ED2K_CHUNK_SIZE]
        simp only [List.length_cons] at hl
        omega
  exact H l.length l le_rfl

theorem ed2kChunks_flatten (l : List Nat) : (ed2kChunks l).flatten = l := by
  have H : ∀ (n : Nat) (l : List Nat), l.length ≤ n → (ed2kChunks l).flatten = l := by
    intro n
    induction n with
    | zero =>
      intro l hl
      have hnil : l = [] := List.eq_nil_of_length_eq_zero (Nat.le_zero.mp hl)
      subst hnil
      simp [ed2kChunks_nil]
    | succ n ih =>
      intro l hl
      cases l with
      | nil => simp [ed2kChunks_nil]
      | cons a as =>
        rw [ed2kChunks_of_ne_nil _ (by simp)]
        have hd : ((a :: as).drop ED2K_CHUNK_SIZE).length ≤ n := by
          simp only [List.length_drop, List.length_cons, ED2K_CHUNK_SIZE]
          simp only [List.length_cons] at hl
          omega
        simp only [List.flatten_cons, ih _ hd, List.take_append_drop]
  exact H l.length l le_rfl

theorem nil_not_mem_ed2kChunks (l : List Nat) : [] ∉ ed2kChunks l := by
  have H : ∀ (n : Nat) (l : List Nat), l.length ≤ n → [] ∉ ed2kChunks l := by
    intro n
    induction n with
    | zero =>
      intro l hl
      have hnil : l = [] := List.eq_nil_of_length_eq_zero (Nat.le_zero.mp hl)
      subst hnil
      simp [ed2kChunks_nil]
    | succ n ih =>
      intro l hl
      cases l with
      | nil => simp [ed2kChunks_nil]
      | cons a as =>
        rw [ed2kChunks_of_ne_nil _ (by simp)]
        intro hmem
        rcases List.mem_cons.mp hmem with hhead | htail
        · have hlen : ((a :: as).take ED2K_CHUNK_SIZE).length = 0 := by
            rw [← hhead]
            rfl
          rw [List.length_take] at hlen
          simp [ED2K_CHUNK_SIZE] at hlen
        · have hd : ((a :: as).drop ED2K_CHUNK_SIZE).length ≤ n := by
            simp only [List.length_drop, List.length_cons, ED2K_CHUNK_SIZE]
            simp only [List.length_cons] at hl
            omega
          exact ih _ hd htail
  exact H l.length l le_rfl

theorem hexDigitChar_mem (d : Nat) (h : d < 16) : hexDigitChar d ∈ hexAlphabet := by
  revert d
  decide

theorem hex32_length (n : Nat) : (hex32 n).length = 32 := by
  simp [hex32]

theorem hex32_mem (n : Nat) (c : Char) (h : c ∈ hex32 n) : c ∈ hexAlphabet := by
  simp only [hex32, List.mem_map] at h
  obtain ⟨i, _, rfl⟩ := h
  exact hexDigitChar_mem _ (Nat.mod_lt _ (by decide))

/-- **C1**: for every file, the content hash computed by the code
(`ed2k_hash` followed by `format!("{:032x}", u128::from_be_bytes(..))`)
equals the spec's two-level chunked digest reference definition: the bytes are
partitioned into consecutive unpadded chunks of `ED2K_CHUNK_SIZE` (the
partition concatenates back to the file, contains no empty chunk, and chunk
`i` is the slice starting at `i * ED2K_CHUNK_SIZE`), each chunk is digested,
the digests are concatenated in chunk order and digested once more, and the
result is rendered as exactly 32 lowercase hexadecimal characters. -/
theorem contentHash_refines_spec (md4 : List Nat → List Nat) (bytes : List Nat) :
    contentHash md4 bytes = specContentHash md4 bytes ∧
    (contentHash md4 bytes).toList.length = 32 ∧
    (∀ c ∈ (contentHash md4 bytes).toList, c ∈ hexAlphabet) ∧
    (ed2kChunks bytes).flatten = bytes ∧
    [] ∉ ed2kChunks bytes := by
  refine ⟨?_, ?_, ?_, ed2kChunks_flatten bytes, nil_not_mem_ed2kChunks bytes⟩
  · simp only [contentHash, specContentHash, ed2k_hash, ed2kChunks_eq_specChunks]
  · exact hex32_length _
  · intro c hc
    exact hex32_mem _ c hc

/-- **C2**: for every non-empty file of at most one chunk, `ed2k_hash`
performs both digest steps: the result is the outer digest of the inner
digest of the file's bytes, never just the single inner digest. -/
theorem single_chunk_double_hash (md4 : List Nat → List Nat) (bytes : List Nat)
    (h1 : bytes ≠ []) (h2 : bytes.length ≤ ED2K_CHUNK_SIZE) :
    ed2k_hash md4 bytes = md4 (md4 bytes) := by
  rw [ed2k_hash, ed2kChunks_small bytes h1 h2]
  simp

/-- A tiny stand-in digest function used only to instantiate theorems about
the abstract `md4` parameter on concrete inputs. -/
def md4w (l : List Nat) : List Nat :=
  List.replicate 16 (l.length % 256)

/-- Witness for **C2** at the concrete one-byte file `[7]`. -/
theorem single_chunk_double_hash_witness :
    ed2k_hash md4w [7] = md4w (md4w [7]) :=
  single_chunk_double_hash md4w [7] (by decide) (by decide)

/-- **C10** counterexample: at the claim's sole input, the zero-byte file,
the program's hashing fails before any digest — `Mmap::map` cannot map a
zero-length file — so `ed2k_hash` returns `Err` and no ContentHash, in
particular not the claimed single outer digest of the empty buffer, is ever
produced. -/
theorem empty_file_hash_cex :
    ed2k_hash_io md4w [] = .error () ∧ ed2k_hash_io md4w [] ≠ .ok (md4w []) := by
  constructor
  · rfl
  · simp [ed2k_hash_io]

/-- **C10** (amended): the program never hashes a zero-length file: the
fallible `ed2k_hash` signals an I/O error there (and only there — every
nonempty file reaches the digest pipeline). The chunk partition of the empty
byte sequence is indeed empty, and the digest pipeline applied to empty
input would collapse to the single outer digest of the empty buffer, but
zero-length input never reaches either digest step. -/
theorem empty_file_no_hash :
    (∀ md4 : List Nat → List Nat, ed2k_hash_io md4 [] = .error ()) ∧
    (∀ (md4 : List Nat → List Nat) (bytes : List Nat), bytes ≠ [] →
      ed2k_hash_io md4 bytes = .ok (ed2k_hash md4 bytes)) ∧
    ed2kChunks [] = [] ∧
    (∀ md4 : List Nat → List Nat, ed2k_hash md4 [] = md4 []) := by
  refine ⟨fun md4 => rfl, fun md4 bytes h => ?_, ed2kChunks_nil, fun md4 => ?_⟩
  · simp [ed2k_hash_io, h]
  · rw [ed2k_hash, ed2kChunks_nil]
    simp

/-- Witness for the amended **C10**: a concrete nonempty file passes the
`Mmap::map` step and reaches the digest pipeline. -/
theorem empty_file_no_hash_witness :
    ed2k_hash_io md4w [7] = .ok (ed2k_hash md4w [7]) :=
  empty_file_no_hash.2.1 md4w [7] (by decide)

end AnidbIndexer

namespace AnidbIndexer

/-- A row of the `files` table / the `ranidb::File` entity (a ContentRecord). -/
structure RFile where
  fid : Nat
  aid : Nat
  eid : Nat
  gid : Nat
  state : Int
  size : Nat
  ed2k : String
  colour_depth : String
  quality : String
  source : String
  audio_codec_list : String
  audio_bitrate_list : Int
  video_codec : String
  video_bitrate : Int
  video_resolution : String
  dub_language : String
  sub_language : String
  length_in_seconds : Int
  description : String
  aired_date : Int
deriving DecidableEq, Repr

/-- A row of the `anime` table / the `ranidb::Anime` entity (a Work). -/
structure Anime where
  aid : Nat
  dateflags : Int
  year : String
  atype : String
  related_aid_list : String
  related_aid_type : String
  romaji_name : String
  kanji_name : String
  english_name : String
  short_name_list : String
  episodes : Int
  special_ep_count : Int
  air_date : Int
  end_date : Int
  picname : String
  nsfw : Bool
  characterid_list : String
  specials_count : Int
  credits_count : Int
  other_count : Int
  trailer_count : Int
  parody_count : Int
deriving DecidableEq, Repr

/-- A row of the `episodes` table / the `ranidb::Episode` entity (a Segment). -/
structure Episode where
  eid : Nat
  aid : Nat
  length : Int
  rating : Int
  votes : Int
  epno : String
  eng : String
  romaji : String
  kanji : String
  aired : Int
  etype : Int
deriving DecidableEq, Repr

/-- A row of the `groups` table / the `ranidb::Group` entity. -/
structure Group where
  gid : Nat
  rating : Int
  votes : Int
  acount : Int
  fcount : Int
  name : String
  short : String
  irc_channel : String
  irc_server : String
  url : String
  picname : String
  foundeddate : Int
  disbandeddate : Int
  dateflags : Int
  lastreleasedate : Int
  lastactivitydate : Int
  grouprelations : String
deriving DecidableEq, Repr

/-- A row of the `indexed_files` table (a PathIndexEntry): primary key `path`,
uniqueness constraint on `(filename, filesize)` with `ON CONFLICT REPLACE`. -/
structure IndexedEntry where
  path : String
  filename : String
  filesize : Int
  fid : Nat
deriving DecidableEq, Repr

/-- The SQLite database: four entity tables (each row keyed by its own id
column) and the path index. Row lists model tables; `query_row` returns the
first matching row. -/
structure DbState where
  anime : List Anime
  episodes : List Episode
  groups : List Group
  files : List RFile
  indexed_files : List IndexedEntry
deriving DecidableEq, Repr

/-- `SELECT * FROM t WHERE key = id` returning the first hit. -/
def tableLookup (keyOf : α → Nat) (table : List α) (id : Nat) : Option α :=
  table.find? (fun r => keyOf r == id)

/-- `INSERT OR REPLACE INTO t VALUES (..)` on a table whose only uniqueness
constraint is the integer primary key: drop conflicting rows, add the new
row. -/
def tableUpsert (keyOf : α → Nat) (table : List α) (r : α) : List α :=
  r :: table.filter (fun x => keyOf x != keyOf r)

/-- `SELECT fid, path FROM indexed_files WHERE path = ? OR (filename = ? AND
filesize = ?)`, first hit. -/
def indexedLookup (t : List IndexedEntry) (path fname : String) (size : Int) :
    Option IndexedEntry :=
  t.find? (fun e => e.path == path || (e.filename == fname && e.filesize == size))

/-- `INSERT OR REPLACE INTO indexed_files VALUES (?, ?, ?, ?)`: drop rows
conflicting on the `path` primary key or on the `(filename, filesize)`
uniqueness constraint, add the new row. -/
def indexedUpsert (t : List IndexedEntry) (e : IndexedEntry) : List IndexedEntry :=
  e :: t.filter (fun x =>
    !(x.path == e.path) && !(x.filename == e.filename && x.filesize == e.filesize))

/-- `UPDATE indexed_files SET path = ? WHERE path = ?` (the self-healing path
update on a `(filename, size)` match at a new location). -/
def updatePath (t : List IndexedEntry) (newPath oldPath : String) : List IndexedEntry :=
  t.map (fun e => if e.path = oldPath then { e with path := newPath } else e)

/-- Split a character list at every `/` (the components of a path). -/
def pathComponents : List Char → List (List Char)
  | [] => [[]]
  | c :: rest =>
    if c = '/' then [] :: pathComponents rest
    else
      match pathComponents rest with
      | [] => [[c]]
      | h :: t => (c :: h) :: t

/-- `path.file_name().unwrap_or_default().to_string_lossy()`: the final
nonempty path component, `""` when there is none (root or a path ending
in `..`). -/
def fileName (p : String) : String :=
  match ((pathComponents p.toList).filter (fun c => !c.isEmpty)).getLast? with
  | some c => if c = ['.', '.'] then "" else String.mk c
  | none => ""

/-- `path.metadata().map(|f| f.size() as i64).unwrap_or_default()`: the byte
size of the file at `p`, `0` when the metadata call fails. -/
def pathSize (fsys : String → Option (List Nat)) (p : String) : Int :=
  match fsys p with
  | some bytes => (bytes.length : Int)
  | none => 0

/-- The three possible outcomes of `anidb.file_by_ed2k(size, &ed2k)`:
a file entity, AniDB error 320 ("NO SUCH FILE"), or any other error
(which the code turns into a `panic!`). -/
inductive RemoteFileAnswer where
  | found (f : RFile)
  | unknownFile
  | otherError
deriving DecidableEq, Repr

/-- The deterministic external world: the filesystem (path to bytes; `none`
is a missing/unreadable file), the remote AniDB lookups (`none` is any
failure), and the MD4 digest function. -/
structure Env where
  fsys : String → Option (List Nat)
  file_by_ed2k : Nat → String → RemoteFileAnswer
  anime_by_id : Nat → Option Anime
  episode_by_id : Nat → Option Episode
  group_by_id : Nat → Option Group
  md4 : List Nat → List Nat

/-- Which externally visible work `get_file` performed: whether it hashed the
file's bytes and whether it called the remote service. -/
structure Effects where
  hashed : Bool
  remote : Bool
deriving DecidableEq, Repr

/-- A run-aborting failure: a file I/O error propagated out of `ed2k_hash` /
`File::open`, or the `panic!` on an unexpected remote response. -/
inductive Fatal where
  | ioError
  | remotePanic
deriving DecidableEq, Repr

/-- `CachedFacade::get_file`. Look up the path index by exact path or by
`(filename, filesize)`. On a hit, self-heal the recorded path if it differs,
and answer from the local `files` table (`query_row(..).ok()`). On a miss,
read and hash the file, ask the remote service by `(size, ed2k)`; error 320
returns `None` with nothing written, any other error is a panic, and a found
file is upserted into `files` and recorded in `indexed_files`. -/
def get_file (env : Env) (s : DbState) (p : String) :
    Except Fatal (Option RFile × DbState × Effects) :=
  match indexedLookup s.indexed_files p (fileName p) (pathSize env.fsys p) with
  | some entry =>
    .ok (tableLookup RFile.fid s.files entry.fid,
      if entry.path ≠ p then
        { s with indexed_files := updatePath s.indexed_files p entry.path }
      else s,
      ⟨false, false⟩)
  | none =>
    match env.fsys p with
    | none => .error .ioError
    | some bytes =>
      match env.file_by_ed2k bytes.length (contentHash env.md4 bytes) with
      | .unknownFile => .ok (none, s, ⟨true, true⟩)
      | .otherError => .error .remotePanic
      | .found f =>
        .ok (some f,
          { s with
              files := tableUpsert RFile.fid s.files f,
              indexed_files := indexedUpsert s.indexed_files
                ⟨p, fileName p, pathSize env.fsys p, f.fid⟩ },
          ⟨true, true⟩)

/-- The body of the `simple_cache!` macro: `getOrFetch`. Query the table by
`id`; on a hit return the stored row with no remote call; on a miss invoke
the fetch, propagate its failure without writing, or upsert the fetched
entity (keyed by its own id column) and return it. The `Bool` reports
whether the remote fetch happened. -/
def simple_cache (keyOf : α → Nat) (table : List α) (fetchFn : Nat → Option α)
    (id : Nat) : Except Unit (α × List α × Bool) :=
  match tableLookup keyOf table id with
  | some hit => .ok (hit, table, false)
  | none =>
    match fetchFn id with
    | none => .error ()
    | some live => .ok (live, tableUpsert keyOf table live, true)

/-- `CachedFacade::get_anime`, as its caller in `index` uses it: the
propagated failure is caught there (the `Result` is inspected, not `?`-ed),
so it becomes `none` with the state unchanged. -/
def get_anime (env : Env) (s : DbState) (id : Nat) : Option Anime × DbState :=
  match simple_cache Anime.aid s.anime env.anime_by_id id with
  | .ok (a, t, _) => (some a, { s with anime := t })
  | .error _ => (none, s)

/-- `CachedFacade::get_episode`, failure caught by the caller. -/
def get_episode (env : Env) (s : DbState) (id : Nat) : Option Episode × DbState :=
  match simple_cache Episode.eid s.episodes env.episode_by_id id with
  | .ok (e, t, _) => (some e, { s with episodes := t })
  | .error _ => (none, s)

/-- `CachedFacade::get_group`, failure caught by the caller. -/
def get_group (env : Env) (s : DbState) (id : Nat) : Option Group × DbState :=
  match simple_cache Group.gid s.groups env.group_by_id id with
  | .ok (g, t, _) => (some g, { s with groups := t })
  | .error _ => (none, s)

/-- One iteration of the per-file loop in `index`: resolve the file, then (if
resolved) enrich with anime/episode/group for the status line, tolerating
their failures with `"Unknown"` / `"??"` placeholders. Returns the updated
database and the final status message of the file's progress bar. -/
def processFile (env : Env) (s : DbState) (p : String) :
    Except Fatal (DbState × String) :=
  match get_file env s p with
  | .error e => .error e
  | .ok (none, s1, _) => .ok (s1, "Not found: " ++ p)
  | .ok (some f, s1, _) =>
    let ra := get_anime env s1 f.aid
    let animeName := match ra.1 with
      | some a => a.romaji_name
      | none => "Unknown"
    let re := get_episode env ra.2 f.eid
    let episodeNumber := match re.1 with
      | some e => e.epno
      | none => "??"
    let rg := get_group env re.2 f.gid
    let groupName := match rg.1 with
      | some g => g.name
      | none => "Unknown"
    .ok (rg.2, animeName ++ " - " ++ episodeNumber ++ " [" ++ groupName ++ "]")

/-- The Process phase: the per-file loop over the discovered file list, in
order, stopping at the first fatal failure. Collects each file's final
status message. -/
def processAll (env : Env) (s : DbState) : List String → Except Fatal (DbState × List String)
  | [] => .ok (s, [])
  | p :: rest =>
    match processFile env s p with
    | .error e => .error e
    | .ok (s1, m) =>
      match processAll env s1 rest with
      | .error e => .error e
      | .ok (s2, ms) => .ok (s2, m :: ms)

/-- The Prune phase: `DELETE FROM indexed_files WHERE path = ?` for every
stored path that no longer exists on the filesystem. -/
def prune (env : Env) (t : List IndexedEntry) : List IndexedEntry :=
  t.filter (fun e => (env.fsys e.path).isSome)

/-- `index` after discovery: process every discovered file, then prune the
path index. Discovery itself is a filesystem walk, so the discovered file
list is a parameter. -/
def runIndex (env : Env) (s : DbState) (paths : List String) :
    Except Fatal (DbState × List String) :=
  match processAll env s paths with
  | .error e => .error e
  | .ok (s1, msgs) =>
    .ok ({ s1 with indexed_files := prune env s1.indexed_files }, msgs)

end AnidbIndexer

namespace AnidbIndexer

/-- **C4**: when the path-index lookup misses and the remote service reports
the computed content hash as unknown (AniDB error 320), `get_file` returns
`None` and the database state is returned unchanged — nothing is written to
the path index or to any entity table — while the file was hashed and the
remote was called. Since the state is unchanged and the run is
deterministic, a repeated run on the same file takes the same path (hashing
again) and produces the same `None` outcome. -/
theorem unknown_file_not_cached (env : Env) (s : DbState) (p : String)
    (bytes : List Nat)
    (hmiss : indexedLookup s.indexed_files p (fileName p) (pathSize env.fsys p) = none)
    (hfs : env.fsys p = some bytes)
    (hremote : env.file_by_ed2k bytes.length (contentHash env.md4 bytes) = .unknownFile) :
    get_file env s p = .ok (none, s, ⟨true, true⟩) := by
  unfold get_file
  simp only [hmiss, hfs, hremote]

/-- The empty database. -/
def emptyDb : DbState := ⟨[], [], [], [], []⟩

/-- A concrete ContentRecord used to instantiate theorems. -/
def rfile0 : RFile :=
  ⟨9, 1, 2, 3, 0, 1, "h", "", "", "", "", 0, "", 0, "", "", "", 0, "", 0⟩

/-- An environment whose remote does not recognize any hash. -/
def unknownEnv : Env where
  fsys := fun p => if p == "d/v" then some [5] else none
  file_by_ed2k := fun _ _ => .unknownFile
  anime_by_id := fun _ => none
  episode_by_id := fun _ => none
  group_by_id := fun _ => none
  md4 := fun _ => []

/-- Witness for **C4** on a concrete one-byte file unknown to the remote. -/
theorem unknown_file_not_cached_witness :
    get_file unknownEnv emptyDb "d/v" = .ok (none, emptyDb, ⟨true, true⟩) :=
  unknown_file_not_cached unknownEnv emptyDb "d/v" [5] rfl rfl rfl

/-- **C5**: `simple_cache` — the `getOrFetch` shared by the Work, Segment and
Group caches (it is generic in the row type, the key column and the fetch
function, exactly as the `simple_cache!` macro is) — returns the stored row
with no fetch and no table change on a hit; on a miss with a failing fetch it
propagates the failure and produces no table to write; on a miss with a
successful fetch whose entity carries the requested id it returns the entity,
upserts it, and the upserted table then yields it under key `id`. -/
theorem getOrFetch_cache_aside {α : Type} (keyOf : α → Nat) (table : List α)
    (fetchFn : Nat → Option α) (id : Nat) :
    (∀ e, tableLookup keyOf table id = some e →
      simple_cache keyOf table fetchFn id = .ok (e, table, false)) ∧
    (tableLookup keyOf table id = none → fetchFn id = none →
      simple_cache keyOf table fetchFn id = .error ()) ∧
    (∀ live, tableLookup keyOf table id = none → fetchFn id = some live →
      keyOf live = id →
      simple_cache keyOf table fetchFn id =
        .ok (live, tableUpsert keyOf table live, true) ∧
      tableLookup keyOf (tableUpsert keyOf table live) id = some live) := by
  refine ⟨?_, ?_, ?_⟩
  · intro e he
    unfold simple_cache
    rw [he]
  · intro h1 h2
    unfold simple_cache
    rw [h1, h2]
  · intro live h1 h2 hkey
    constructor
    · unfold simple_cache
      rw [h1, h2]
    · unfold tableLookup tableUpsert
      simp [hkey]

/-- A concrete Work entity with id 5. -/
def anime0 : Anime :=
  ⟨5, 0, "", "", "", "", "A", "", "", "", 0, 0, 0, 0, "", false, "", 0, 0, 0, 0, 0⟩

/-- Witness for **C5**: fetch-and-upsert on a miss over the empty Work table. -/
theorem getOrFetch_cache_aside_witness :
    simple_cache Anime.aid [] (fun _ => some anime0) 5 =
      .ok (anime0, tableUpsert Anime.aid [] anime0, true) ∧
    tableLookup Anime.aid (tableUpsert Anime.aid [] anime0) 5 = some anime0 :=
  (getOrFetch_cache_aside Anime.aid [] (fun _ => some anime0) 5).2.2 anime0 rfl rfl rfl

/-- An environment with an empty filesystem and an unknown-file remote. -/
def cexEnv : Env where
  fsys := fun _ => none
  file_by_ed2k := fun _ _ => .unknownFile
  anime_by_id := fun _ => none
  episode_by_id := fun _ => none
  group_by_id := fun _ => none
  md4 := fun _ => []

/-- A database whose path index points path `a/x` at ContentRecord id 7,
while the `files` table has no row for id 7. -/
def cexDb : DbState := ⟨[], [], [], [], [⟨"a/x", "x", 0, 7⟩]⟩

/-- **C3** counterexample: a `resolveFile` call whose path-index lookup hits
and yields ContentRecord identifier 7, with no locally stored record for 7.
The claim says the record is then fetched from the remote service by that
identifier; instead `get_file` returns `Ok None` having made no remote call
at all (the remote effect flag is `false`), so the claim is false on this
input. -/
theorem resolveFile_hit_no_fetch_cex :
    indexedLookup cexDb.indexed_files "a/x" (fileName "a/x")
      (pathSize cexEnv.fsys "a/x") = some ⟨"a/x", "x", 0, 7⟩ ∧
    tableLookup RFile.fid cexDb.files 7 = none ∧
    get_file cexEnv cexDb "a/x" = .ok (none, cexDb, ⟨false, false⟩) :=
  ⟨rfl, rfl, rfl⟩

/-- **C3** (amended): on a path-index hit yielding identifier `e.fid`,
`resolveFile` answers purely from the local `files` table — the stored
record when present and `None` otherwise — performing neither a hash nor any
remote call, and leaving every entity table unchanged (only the path column
of the path index may be self-healed). -/
theorem resolveFile_hit_local_only (env : Env) (s : DbState) (p : String)
    (e : IndexedEntry)
    (h : indexedLookup s.indexed_files p (fileName p) (pathSize env.fsys p) = some e) :
    ∃ s1, get_file env s p =
        .ok (tableLookup RFile.fid s.files e.fid, s1, ⟨false, false⟩) ∧
      s1.files = s.files ∧ s1.anime = s.anime ∧ s1.episodes = s.episodes ∧
      s1.groups = s.groups := by
  by_cases hp : e.path = p
  · refine ⟨s, ?_, rfl, rfl, rfl, rfl⟩
    unfold get_file
    simp only [h]
    rw [if_neg (not_not_intro hp)]
  · refine ⟨{ s with indexed_files := updatePath s.indexed_files p e.path },
      ?_, rfl, rfl, rfl, rfl⟩
    unfold get_file
    simp only [h]
    rw [if_pos hp]

/-- Witness for the amended **C3** at the concrete hit with a missing local
record. -/
theorem resolveFile_hit_local_only_witness :
    ∃ s1, get_file cexEnv cexDb "a/x" =
        .ok (tableLookup RFile.fid cexDb.files
          (IndexedEntry.fid ⟨"a/x", "x", 0, 7⟩), s1, ⟨false, false⟩) ∧
      s1.files = cexDb.files ∧ s1.anime = cexDb.anime ∧
      s1.episodes = cexDb.episodes ∧ s1.groups = cexDb.groups :=
  resolveFile_hit_local_only cexEnv cexDb "a/x" ⟨"a/x", "x", 0, 7⟩ rfl

end AnidbIndexer

namespace AnidbIndexer

/-- **C6**: a file previously indexed at path `A` and now present at path `B`
with the same filename and byte size is matched by the `(filename, size)`
disjunct of the lookup (the conclusion derives both equalities from the
match), resolves with no hashing and no remote call to the locally stored
ContentRecord of the recorded identifier, and as a side effect of the lookup
the stored entry's path is rewritten from `A` to `B`. -/
theorem move_detection (env : Env) (s : DbState) (A B : String)
    (e : IndexedEntry) (rec : RFile)
    (hpath : e.path = A) (hne : A ≠ B)
    (hlookup : indexedLookup s.indexed_files B (fileName B) (pathSize env.fsys B) = some e)
    (hrec : tableLookup RFile.fid s.files e.fid = some rec) :
    fileName B = e.filename ∧ pathSize env.fsys B = e.filesize ∧
    get_file env s B = .ok (some rec,
      { s with indexed_files := updatePath s.indexed_files B A }, ⟨false, false⟩) ∧
    (e ∈ s.indexed_files → { e with path := B } ∈ updatePath s.indexed_files B A) := by
  have hfind := hlookup
  unfold indexedLookup at hfind
  have hP := List.find?_some hfind
  have hnotB : ¬(e.path = B) := by
    rw [hpath]
    exact hne
  simp only [Bool.or_eq_true, Bool.and_eq_true, beq_iff_eq, hnotB, false_or] at hP
  refine ⟨hP.1.symm, hP.2.symm, ?_, ?_⟩
  · unfold get_file
    simp only [hlookup]
    rw [if_pos hnotB, hrec, hpath]
  · intro hmem
    unfold updatePath
    have himg := List.mem_map_of_mem
      (fun x : IndexedEntry => if x.path = A then { x with path := B } else x) hmem
    simpa [hpath] using himg

/-- The database for the move scenario: ContentRecord 9 stored, and the path
index recording it at `d1/f` (filename `f`, size 2). -/
def moveDb : DbState := ⟨[], [], [], [rfile0], [⟨"d1/f", "f", 2, 9⟩]⟩

/-- The environment for the move scenario: the file now lives at `d2/f` with
the same filename `f` and the same size 2; the remote would abort if asked. -/
def moveEnv : Env where
  fsys := fun p => if p == "d2/f" then some [1, 2] else none
  file_by_ed2k := fun _ _ => .otherError
  anime_by_id := fun _ => none
  episode_by_id := fun _ => none
  group_by_id := fun _ => none
  md4 := fun _ => []

/-- Witness for **C6** on the concrete moved file. -/
theorem move_detection_witness :
    fileName "d2/f" = IndexedEntry.filename ⟨"d1/f", "f", 2, 9⟩ ∧
    pathSize moveEnv.fsys "d2/f" = IndexedEntry.filesize ⟨"d1/f", "f", 2, 9⟩ ∧
    get_file moveEnv moveDb "d2/f" = .ok (some rfile0,
      { moveDb with indexed_files := updatePath moveDb.indexed_files "d2/f" "d1/f" },
      ⟨false, false⟩) ∧
    ((⟨"d1/f", "f", 2, 9⟩ : IndexedEntry) ∈ moveDb.indexed_files →
      { (⟨"d1/f", "f", 2, 9⟩ : IndexedEntry) with path := "d2/f" } ∈
        updatePath moveDb.indexed_files "d2/f" "d1/f") :=
  move_detection moveEnv moveDb "d1/f" "d2/f" ⟨"d1/f", "f", 2, 9⟩ rfile0 rfl
    (by decide) rfl rfl

/-- Chaining lemma for the per-file loop: a processed head followed by a
successfully processed tail. -/
theorem processAll_cons (env : Env) (s : DbState) (p : String)
    (rest : List String) (s1 : DbState) (m : String) (s2 : DbState)
    (msgs : List String)
    (h1 : processFile env s p = .ok (s1, m))
    (h2 : processAll env s1 rest = .ok (s2, msgs)) :
    processAll env s (p :: rest) = .ok (s2, m :: msgs) := by
  unfold processAll
  simp only [h1, h2]

/-- **C8**: `runIndex` prunes only after the Process phase has handled every
discovered file: on a successful process pass it returns exactly the
processed state with the path index filtered, the filter keeps precisely the
entries whose stored path still exists on the filesystem, and the four
entity tables (anime/episodes/groups/files) of the result are those of the
processed state, untouched; and if processing aborts, the prune never
happens (the error is returned unchanged). -/
theorem prune_runs_last (env : Env) (s : DbState) (paths : List String) :
    (∀ s1 msgs, processAll env s paths = .ok (s1, msgs) →
      runIndex env s paths =
        .ok ({ s1 with indexed_files := prune env s1.indexed_files }, msgs) ∧
      (∀ e, e ∈ prune env s1.indexed_files ↔
        e ∈ s1.indexed_files ∧ (env.fsys e.path).isSome) ∧
      ({ s1 with indexed_files := prune env s1.indexed_files }).anime = s1.anime ∧
      ({ s1 with indexed_files := prune env s1.indexed_files }).episodes = s1.episodes ∧
      ({ s1 with indexed_files := prune env s1.indexed_files }).groups = s1.groups ∧
      ({ s1 with indexed_files := prune env s1.indexed_files }).files = s1.files) ∧
    (∀ err, processAll env s paths = .error err →
      runIndex env s paths = .error err) := by
  constructor
  · intro s1 msgs h
    refine ⟨?_, ?_, rfl, rfl, rfl, rfl⟩
    · unfold runIndex
      rw [h]
    · intro e
      unfold prune
      simp [List.mem_filter]
  · intro err h
    unfold runIndex
    rw [h]

/-- An environment in which the file at `d/v` resolves to `rfile0` but every
Work/Segment/Group fetch fails. -/
def foundEnv : Env where
  fsys := fun p => if p == "d/v" then some [5] else none
  file_by_ed2k := fun _ _ => .found rfile0
  anime_by_id := fun _ => none
  episode_by_id := fun _ => none
  group_by_id := fun _ => none
  md4 := fun _ => []

/-- Witness for **C8** with one discovered, resolved file. -/
theorem prune_runs_last_witness :
    runIndex foundEnv emptyDb ["d/v"] =
      .ok ({ (⟨[], [], [], [rfile0], [⟨"d/v", "v", 1, 9⟩]⟩ : DbState) with
          indexed_files :=
            prune foundEnv (DbState.indexed_files ⟨[], [], [], [rfile0], [⟨"d/v", "v", 1, 9⟩]⟩) },
        ["Unknown - ?? [Unknown]"]) ∧
    (∀ e, e ∈ prune foundEnv (DbState.indexed_files ⟨[], [], [], [rfile0], [⟨"d/v", "v", 1, 9⟩]⟩) ↔
      e ∈ DbState.indexed_files ⟨[], [], [], [rfile0], [⟨"d/v", "v", 1, 9⟩]⟩ ∧
        (foundEnv.fsys e.path).isSome) ∧
    DbState.anime { (⟨[], [], [], [rfile0], [⟨"d/v", "v", 1, 9⟩]⟩ : DbState) with
        indexed_files :=
          prune foundEnv (DbState.indexed_files ⟨[], [], [], [rfile0], [⟨"d/v", "v", 1, 9⟩]⟩) } =
      DbState.anime ⟨[], [], [], [rfile0], [⟨"d/v", "v", 1, 9⟩]⟩ ∧
    DbState.episodes { (⟨[], [], [], [rfile0], [⟨"d/v", "v", 1, 9⟩]⟩ : DbState) with
        indexed_files :=
          prune foundEnv (DbState.indexed_files ⟨[], [], [], [rfile0], [⟨"d/v", "v", 1, 9⟩]⟩) } =
      DbState.episodes ⟨[], [], [], [rfile0], [⟨"d/v", "v", 1, 9⟩]⟩ ∧
    DbState.groups { (⟨[], [], [], [rfile0], [⟨"d/v", "v", 1, 9⟩]⟩ : DbState) with
        indexed_files :=
          prune foundEnv (DbState.indexed_files ⟨[], [], [], [rfile0], [⟨"d/v", "v", 1, 9⟩]⟩) } =
      DbState.groups ⟨[], [], [], [rfile0], [⟨"d/v", "v", 1, 9⟩]⟩ ∧
    DbState.files { (⟨[], [], [], [rfile0], [⟨"d/v", "v", 1, 9⟩]⟩ : DbState) with
        indexed_files :=
          prune foundEnv (DbState.indexed_files ⟨[], [], [], [rfile0], [⟨"d/v", "v", 1, 9⟩]⟩) } =
      DbState.files ⟨[], [], [], [rfile0], [⟨"d/v", "v", 1, 9⟩]⟩ :=
  (prune_runs_last foundEnv emptyDb ["d/v"]).1
    ⟨[], [], [], [rfile0], [⟨"d/v", "v", 1, 9⟩]⟩ ["Unknown - ?? [Unknown]"] rfl

end AnidbIndexer

namespace AnidbIndexer

/-- **C9**: during the Process phase, once a file is resolved, no failure of
the Work/Segment/Group resolutions can abort the run: whatever the remote
answers for the related identifiers (the environment is arbitrary here),
`processFile` returns `Ok` and processing continues with the remaining
files; and when the Work, Segment and Group all fail to resolve (cache miss
plus failing remote fetch — e.g. a remote not-found), they surface in the
status line as `Unknown - ?? [Unknown]`. -/
theorem related_failure_tolerated (env : Env) (s : DbState) (p : String)
    (f : RFile) (s1 : DbState) (eff : Effects)
    (hfile : get_file env s p = .ok (some f, s1, eff)) :
    (∃ s2 msg, processFile env s p = .ok (s2, msg) ∧
      ∀ rest s3 msgs, processAll env s2 rest = .ok (s3, msgs) →
        processAll env s (p :: rest) = .ok (s3, msg :: msgs)) ∧
    (tableLookup Anime.aid s1.anime f.aid = none → env.anime_by_id f.aid = none →
     tableLookup Episode.eid s1.episodes f.eid = none →
     env.episode_by_id f.eid = none →
     tableLookup Group.gid s1.groups f.gid = none → env.group_by_id f.gid = none →
      processFile env s p = .ok (s1, "Unknown - ?? [Unknown]")) := by
  constructor
  · have h1 : ∃ s2 msg, processFile env s p = .ok (s2, msg) := by
      unfold processFile
      simp only [hfile]
      exact ⟨_, _, rfl⟩
    obtain ⟨s2, msg, h1⟩ := h1
    exact ⟨s2, msg, h1, fun rest s3 msgs h3 =>
      processAll_cons env s p rest s2 msg s3 msgs h1 h3⟩
  · intro ha1 ha2 he1 he2 hg1 hg2
    have hga : get_anime env s1 f.aid = (none, s1) := by
      unfold get_anime simple_cache
      simp only [ha1, ha2]
    have hge : get_episode env s1 f.eid = (none, s1) := by
      unfold get_episode simple_cache
      simp only [he1, he2]
    have hgg : get_group env s1 f.gid = (none, s1) := by
      unfold get_group simple_cache
      simp only [hg1, hg2]
    unfold processFile
    simp only [hfile, hga, hge, hgg]
    rfl

/-- Witness for **C9**: the file at `d/v` resolves but every related fetch
fails, and the status line reads `Unknown - ?? [Unknown]`. -/
theorem related_failure_tolerated_witness :
    processFile foundEnv emptyDb "d/v" =
      .ok (⟨[], [], [], [rfile0], [⟨"d/v", "v", 1, 9⟩]⟩, "Unknown - ?? [Unknown]") :=
  (related_failure_tolerated foundEnv emptyDb "d/v" rfile0
    ⟨[], [], [], [rfile0], [⟨"d/v", "v", 1, 9⟩]⟩ ⟨true, true⟩ rfl).2
    rfl rfl rfl rfl rfl rfl

/-- After the self-healing `UPDATE`, the dual-key lookup finds the healed
entry: if the rows have distinct paths (the `path` primary key) and the
lookup at `p` found `e` whose recorded path differs from `p`, then the same
lookup on the updated table finds `e` with its path rewritten to `p`. -/
theorem indexedLookup_after_update (t : List IndexedEntry) (p fname : String)
    (fsize : Int) (e : IndexedEntry)
    (hpw : t.Pairwise (fun a b => a.path ≠ b.path))
    (h : indexedLookup t p fname fsize = some e)
    (hne : e.path ≠ p) :
    indexedLookup (updatePath t p e.path) p fname fsize = some { e with path := p } := by
  induction t with
  | nil => simp [indexedLookup] at h
  | cons a as ih =>
    rw [List.pairwise_cons] at hpw
    unfold indexedLookup at h ⊢
    unfold updatePath
    simp only [List.map_cons]
    by_cases hc : (a.path == p || (a.filename == fname && a.filesize == fsize)) = true
    · simp only [List.find?, hc] at h
      have ha : a = e := Option.some.inj h
      subst ha
      rw [if_pos rfl]
      simp [List.find?]
    · rw [Bool.not_eq_true] at hc
      simp only [List.find?, hc] at h
      have hmem : e ∈ as := List.mem_of_find?_eq_some h
      have hape : a.path ≠ e.path := hpw.1 e hmem
      have ihh := ih hpw.2 h
      unfold indexedLookup updatePath at ihh
      rw [if_neg hape]
      simp only [List.find?, hc]
      exact ihh

/-- **C7**: if `resolveFile` on path `p` succeeded with record `f` and left
the database in state `s'` (and the path index keys rows by path, its
primary key), then calling `resolveFile` again on the unchanged path returns
the same record `f`, leaves the state at `s'`, and performs neither a hash
nor any remote call. -/
theorem resolveFile_idempotent (env : Env) (s : DbState) (p : String)
    (f : RFile) (s' : DbState) (eff : Effects)
    (hpw : s.indexed_files.Pairwise (fun a b => a.path ≠ b.path))
    (h : get_file env s p = .ok (some f, s', eff)) :
    get_file env s' p = .ok (some f, s', ⟨false, false⟩) := by
  unfold get_file at h ⊢
  cases h1 : indexedLookup s.indexed_files p (fileName p) (pathSize env.fsys p) with
  | some entry =>
    simp only [h1] at h
    by_cases hp : entry.path = p
    · rw [if_neg (not_not_intro hp)] at h
      simp only [Except.ok.injEq, Prod.mk.injEq] at h
      obtain ⟨hres, hs, heff⟩ := h
      subst hs
      simp only [h1]
      rw [if_neg (not_not_intro hp), hres]
    · rw [if_pos hp] at h
      simp only [Except.ok.injEq, Prod.mk.injEq] at h
      obtain ⟨hres, hs, heff⟩ := h
      subst hs
      have h2 := indexedLookup_after_update s.indexed_files p (fileName p)
        (pathSize env.fsys p) entry hpw h1 hp
      simp only [h2]
      rw [if_neg (not_not_intro rfl), hres]
  | none =>
    simp only [h1] at h
    cases h2 : env.fsys p with
    | none =>
      simp only [h2] at h
      simp at h
    | some bytes =>
      simp only [h2] at h
      cases h3 : env.file_by_ed2k bytes.length (contentHash env.md4 bytes) with
      | unknownFile =>
        simp only [h3] at h
        simp at h
      | otherError =>
        simp only [h3] at h
        simp at h
      | found g =>
        simp only [h3, Except.ok.injEq, Prod.mk.injEq] at h
        obtain ⟨hres, hs, heff⟩ := h
        obtain rfl : g = f := Option.some.inj hres
        subst hs
        simp [indexedLookup, indexedUpsert, tableLookup, tableUpsert]

/-- Witness for **C7**: the second resolution of `d/v` after its first
successful resolution returns the same record with no hashing and no remote
call. -/
theorem resolveFile_idempotent_witness :
    get_file foundEnv ⟨[], [], [], [rfile0], [⟨"d/v", "v", 1, 9⟩]⟩ "d/v" =
      .ok (some rfile0, ⟨[], [], [], [rfile0], [⟨"d/v", "v", 1, 9⟩]⟩, ⟨false, false⟩) :=
  resolveFile_idempotent foundEnv emptyDb "d/v" rfile0
    ⟨[], [], [], [rfile0], [⟨"d/v", "v", 1, 9⟩]⟩ ⟨true, true⟩ List.Pairwise.nil rfl

end AnidbIndexer
